import Mathlib

/-!
Verification of the live markdown decoration engine of the xun-notes
repository, shallowly embedded from
src/renderer/components/LiveMarkdownEditor.tsx.

The embedding models:
* the inline span scanner (the TS function parseInlineElements),
* the per-line block construct parsers (parseHeaderElement,
  parseListElement, parseBlockquoteElement),
* the document state walker (createDecorations), and
* the re-scan trigger of the view plugin (createLivePreviewPlugin).

JavaScript regular expressions used by the source are translated into
explicit character-level matchers; the repeated exec loop of a global
regex (leftmost match at or after lastIndex, lastIndex advanced past
each match) is modelled by execAll.  Strings are modelled as lists of
characters and document positions as natural-number offsets.
-/

namespace XunNotes

/-- The character class of the JavaScript regex escape \s (also the set
of characters removed by String.prototype.trim). -/
def isSpace (c : Char) : Bool :=
  c == ' ' || c == '\t' || c == '\n' || c == '\r' ||
  c.val == 11 || c.val == 12 ||
  c.val == 0xa0 || c.val == 0x1680 ||
  (decide (0x2000 ≤ c.val) && decide (c.val ≤ 0x200a)) ||
  c.val == 0x2028 || c.val == 0x2029 || c.val == 0x202f || c.val == 0x205f ||
  c.val == 0x3000 || c.val == 0xfeff

/-- The character class of the JavaScript regex escape \w, i.e. [A-Za-z0-9_]. -/
def isWordChar (c : Char) : Bool :=
  c.isAlphanum || c == '_'

/-- The character class [a-zA-Z0-9_-] used for tag names. -/
def isTagChar (c : Char) : Bool :=
  c.isAlphanum || c == '_' || c == '-'

/-- Model of JavaScript String.prototype.trim. -/
def trimChars (s : List Char) : List Char :=
  ((s.dropWhile isSpace).reverse.dropWhile isSpace).reverse

/-- Length of the maximal run of characters different from bad,
starting at position p of s (the greedy extent of a [^bad]* item). -/
def countNot (s : List Char) (p : Nat) (bad : Char) : Nat :=
  ((s.drop p).takeWhile (fun c => c != bad)).length

/-- Length of the maximal run of whitespace starting at position p
(the greedy extent of a \s* item). -/
def countSpace (s : List Char) (p : Nat) : Nat :=
  ((s.drop p).takeWhile isSpace).length

/-- Length of the maximal run of tag characters starting at position p. -/
def countTag (s : List Char) (p : Nat) : Nat :=
  ((s.drop p).takeWhile isTagChar).length

/-- Fuel-indexed recursion for execAll; the position advances by at
least one per call, so a fuel of one more than the text length always
suffices. -/
def execAllAux (len : Nat) (step : Nat → Option Nat) : Nat → Nat → List Nat
  | 0, _ => []
  | fuel+1, p =>
    if p < len then
      match step p with
      | some L => p :: execAllAux len step fuel (p + max L 1)
      | none => execAllAux len step fuel (p + 1)
    else []

/-- All the match start positions produced by repeatedly calling exec on
a global JavaScript regex: the leftmost match at or after the current
position is reported and the search resumes after its end.  The step
function returns the match length at a position, or none. -/
def execAll (len : Nat) (step : Nat → Option Nat) (p : Nat) : List Nat :=
  execAllAux len step (len + 1 - p) p

/-- A half-open offset range of a marker, mirroring the TS record
with fields named from and to. -/
structure Span where
  fromPos : Nat
  toPos : Nat
deriving DecidableEq, Repr

/-- The TS union type of MarkdownElement.type. -/
inductive MType
  | bold | italic | code | strikethrough | link | image | tag
deriving DecidableEq, Repr

/-- The TS interface MarkdownElement. -/
structure MarkdownElement where
  type : MType
  fromPos : Nat
  toPos : Nat
  openMarker : Span
  closeMarker : Span
  linkUrl : Option String := none
deriving DecidableEq, Repr

/-- Matcher for a doubled-marker closed pattern such as the bold regex
(two marker characters, one or more non-marker characters, two marker
characters).  Used with marker * and _ for bold and ~ for strikethrough. -/
def doubledClosedMatch (s : List Char) (m : Char) (p : Nat) : Option Nat :=
  if s.get? p = some m ∧ s.get? (p+1) = some m then
    let k := countNot s (p+2) m
    if 1 ≤ k ∧ s.get? (p+2+k) = some m ∧ s.get? (p+3+k) = some m then
      some (k+4)
    else none
  else none

/-- Matcher for a single-marker closed pattern without lookarounds,
i.e. the inline-code regex with the backtick marker. -/
def singleClosedMatch (s : List Char) (m : Char) (p : Nat) : Option Nat :=
  if s.get? p = some m then
    let k := countNot s (p+1) m
    if 1 ≤ k ∧ s.get? (p+1+k) = some m then some (k+2) else none
  else none

/-- Matcher for the closed asterisk italic regex: a single asterisk not
preceded by an asterisk, one or more non-asterisk characters, a single
asterisk not followed by an asterisk. -/
def italicStarMatch (s : List Char) (p : Nat) : Option Nat :=
  if s.get? p = some '*' ∧ (p = 0 ∨ s.get? (p-1) ≠ some '*') then
    let k := countNot s (p+1) '*'
    if 1 ≤ k ∧ s.get? (p+1+k) = some '*' ∧ s.get? (p+2+k) ≠ some '*' then
      some (k+2)
    else none
  else none

/-- Matcher for the closed underscore italic regex: an underscore not
preceded by a word character or underscore, one or more non-underscore
characters, an underscore not followed by a word character or underscore. -/
def italicUnderscoreMatch (s : List Char) (p : Nat) : Option Nat :=
  if s.get? p = some '_' ∧
     (p = 0 ∨ (s.get? (p-1)).all (fun c => !isWordChar c) = true) then
    let k := countNot s (p+1) '_'
    if 1 ≤ k ∧ s.get? (p+1+k) = some '_' ∧
       (s.get? (p+2+k)).all (fun c => !isWordChar c) = true then
      some (k+2)
    else none
  else none

/-- Matcher for the link regex: a bracketed link text of one or more
non-bracket characters followed by a parenthesised URL of one or more
characters. -/
def linkMatch (s : List Char) (p : Nat) : Option Nat :=
  if s.get? p = some '[' then
    let k := countNot s (p+1) ']'
    if 1 ≤ k ∧ s.get? (p+1+k) = some ']' ∧ s.get? (p+2+k) = some '(' then
      let m := countNot s (p+3+k) ')'
      if 1 ≤ m ∧ s.get? (p+3+k+m) = some ')' then some (k+m+4) else none
    else none
  else none

/-- Matcher for the tag regex: start of line or a whitespace character,
then a hash sign and one or more tag characters.  The returned length
includes the leading whitespace character when the second alternative
of the group fires. -/
def tagMatch (s : List Char) (p : Nat) : Option Nat :=
  if p = 0 ∧ s.get? 0 = some '#' ∧ 1 ≤ countTag s 1 then
    some (1 + countTag s 1)
  else if (s.get? p).any isSpace = true ∧ s.get? (p+1) = some '#' ∧
          1 ≤ countTag s (p+2) then
    some (2 + countTag s (p+2))
  else none

/-- Matcher for an unclosed doubled-marker pattern anchored at end of
line: two marker characters followed only by non-marker characters up to
the end of the line.  Used for unclosed bold and unclosed strikethrough. -/
def unclosedDoubledMatch (s : List Char) (m : Char) (p : Nat) : Option Nat :=
  if s.get? p = some m ∧ s.get? (p+1) = some m ∧
     (s.drop (p+2)).all (fun c => c != m) = true then
    some (s.length - p)
  else none

/-- Matcher for the unclosed italic regex: a single asterisk (not part
of a doubled asterisk on either side) followed only by non-asterisk
characters up to the end of the line. -/
def unclosedItalicMatch (s : List Char) (p : Nat) : Option Nat :=
  if s.get? p = some '*' ∧ (p = 0 ∨ s.get? (p-1) ≠ some '*') ∧
     s.get? (p+1) ≠ some '*' ∧ (s.drop (p+1)).all (fun c => c != '*') = true then
    some (s.length - p)
  else none

/-- Matcher for an unclosed single-marker pattern anchored at end of
line, i.e. unclosed inline code with the backtick marker. -/
def unclosedSingleMatch (s : List Char) (m : Char) (p : Nat) : Option Nat :=
  if s.get? p = some m ∧ (s.drop (p+1)).all (fun c => c != m) = true then
    some (s.length - p)
  else none

/-- Elements produced by one closed doubled-marker regex loop
(closed bold with asterisks, closed bold with underscores, closed
strikethrough). -/
def doubledElems (s : List Char) (lineFrom : Nat) (m : Char) (ty : MType) :
    List MarkdownElement :=
  (execAll s.length (doubledClosedMatch s m) 0).map (fun p =>
    let len := countNot s (p+2) m + 4
    { type := ty
      fromPos := lineFrom + p
      toPos := lineFrom + p + len
      openMarker := ⟨lineFrom + p, lineFrom + p + 2⟩
      closeMarker := ⟨lineFrom + p + len - 2, lineFrom + p + len⟩ })

/-- Elements produced by the closed inline-code regex loop. -/
def singleElems (s : List Char) (lineFrom : Nat) (m : Char) (ty : MType) :
    List MarkdownElement :=
  (execAll s.length (singleClosedMatch s m) 0).map (fun p =>
    let len := countNot s (p+1) m + 2
    { type := ty
      fromPos := lineFrom + p
      toPos := lineFrom + p + len
      openMarker := ⟨lineFrom + p, lineFrom + p + 1⟩
      closeMarker := ⟨lineFrom + p + len - 1, lineFrom + p + len⟩ })

/-- The two closed bold loops of the source, in their order: asterisk
bold first, then underscore bold. -/
def closedBoldPhase (s : List Char) (lineFrom : Nat) : List MarkdownElement :=
  doubledElems s lineFrom '*' .bold ++ doubledElems s lineFrom '_' .bold

/-- Elements produced by the closed asterisk italic loop.  Each match is
dropped when its range overlaps a bold element already pushed (the
overlapsWithBold check of the source). -/
def italicStarElems (s : List Char) (lineFrom : Nat)
    (prev : List MarkdownElement) : List MarkdownElement :=
  (execAll s.length (italicStarMatch s) 0).filterMap (fun p =>
    let len := countNot s (p+1) '*' + 2
    let f := lineFrom + p
    let t := lineFrom + p + len
    let overlapsWithBold := prev.any (fun el =>
      decide (el.type = .bold) &&
      !(decide (t ≤ el.fromPos) || decide (f ≥ el.toPos)))
    if overlapsWithBold then none
    else some { type := .italic
                fromPos := f
                toPos := t
                openMarker := ⟨f, f + 1⟩
                closeMarker := ⟨t - 1, t⟩ })

/-- Elements produced by the closed underscore italic loop (the source
pushes these without any overlap check). -/
def italicUnderscoreElems (s : List Char) (lineFrom : Nat) :
    List MarkdownElement :=
  (execAll s.length (italicUnderscoreMatch s) 0).map (fun p =>
    let len := countNot s (p+1) '_' + 2
    { type := .italic
      fromPos := lineFrom + p
      toPos := lineFrom + p + len
      openMarker := ⟨lineFrom + p, lineFrom + p + 1⟩
      closeMarker := ⟨lineFrom + p + len - 1, lineFrom + p + len⟩ })

/-- Elements produced by the link regex loop. -/
def linkElems (s : List Char) (lineFrom : Nat) : List MarkdownElement :=
  (execAll s.length (linkMatch s) 0).map (fun p =>
    let k := countNot s (p+1) ']'
    let m := countNot s (p+3+k) ')'
    let fullFrom := lineFrom + p
    let fullTo := lineFrom + p + k + m + 4
    let textEnd := fullFrom + 1 + k
    { type := .link
      fromPos := fullFrom
      toPos := fullTo
      openMarker := ⟨fullFrom, fullFrom + 1⟩
      closeMarker := ⟨textEnd, fullTo⟩
      linkUrl := some (String.mk ((s.drop (p+3+k)).take m)) })

/-- Elements produced by the tag regex loop: zero-width open and close
markers at the ends of the tag range. -/
def tagElems (s : List Char) (lineFrom : Nat) : List MarkdownElement :=
  (execAll s.length (tagMatch s) 0).map (fun p =>
    let start := if p = 0 ∧ s.get? 0 = some '#' ∧ 1 ≤ countTag s 1 then p else p + 1
    let tagStart := lineFrom + start
    let tagEnd := tagStart + 1 + countTag s (start+1)
    { type := .tag
      fromPos := tagStart
      toPos := tagEnd
      openMarker := ⟨tagStart, tagStart⟩
      closeMarker := ⟨tagEnd, tagEnd⟩ })

/-- Elements produced by an unclosed doubled-marker loop (unclosed bold,
unclosed strikethrough): the span runs from the marker to the end of the
line with a zero-width close marker, and the match is skipped when the
start position is already covered by an element of the same type or when
the captured content is empty. -/
def unclosedDoubledElems (s : List Char) (lineFrom : Nat) (m : Char)
    (ty : MType) (prev : List MarkdownElement) : List MarkdownElement :=
  (execAll s.length (unclosedDoubledMatch s m) 0).filterMap (fun p =>
    let f := lineFrom + p
    let t := lineFrom + s.length
    let alreadyCovered := prev.any (fun el =>
      decide (el.type = ty) && decide (el.fromPos ≤ f) && decide (f ≤ el.toPos))
    if !alreadyCovered && decide (0 < s.length - (p+2)) then
      some { type := ty
             fromPos := f
             toPos := t
             openMarker := ⟨f, f + 2⟩
             closeMarker := ⟨t, t⟩ }
    else none)

/-- Elements produced by the unclosed italic loop: the coverage check
looks at both bold and italic elements already pushed. -/
def unclosedItalicElems (s : List Char) (lineFrom : Nat)
    (prev : List MarkdownElement) : List MarkdownElement :=
  (execAll s.length (unclosedItalicMatch s) 0).filterMap (fun p =>
    let f := lineFrom + p
    let t := lineFrom + s.length
    let alreadyCovered := prev.any (fun el =>
      (decide (el.type = .bold) || decide (el.type = .italic)) &&
      decide (el.fromPos ≤ f) && decide (f ≤ el.toPos))
    if !alreadyCovered && decide (0 < s.length - (p+1)) then
      some { type := .italic
             fromPos := f
             toPos := t
             openMarker := ⟨f, f + 1⟩
             closeMarker := ⟨t, t⟩ }
    else none)

/-- Elements produced by the unclosed inline-code loop. -/
def unclosedSingleElems (s : List Char) (lineFrom : Nat) (m : Char)
    (ty : MType) (prev : List MarkdownElement) : List MarkdownElement :=
  (execAll s.length (unclosedSingleMatch s m) 0).filterMap (fun p =>
    let f := lineFrom + p
    let t := lineFrom + s.length
    let alreadyCovered := prev.any (fun el =>
      decide (el.type = ty) && decide (el.fromPos ≤ f) && decide (f ≤ el.toPos))
    if !alreadyCovered && decide (0 < s.length - (p+1)) then
      some { type := ty
             fromPos := f
             toPos := t
             openMarker := ⟨f, f + 1⟩
             closeMarker := ⟨t, t⟩ }
    else none)

/-- The inline span scanner parseInlineElements: given one line's text
and its starting absolute offset, the list of inline elements of that
line, in the push order of the source (closed bold, closed italic,
strikethrough, code, links, tags, then the unclosed variants). -/
def parseInlineElements (text : List Char) (lineFrom : Nat) :
    List MarkdownElement :=
  let e2 := closedBoldPhase text lineFrom
  let e3 := e2 ++ italicStarElems text lineFrom e2
  let e4 := e3 ++ italicUnderscoreElems text lineFrom
  let e5 := e4 ++ doubledElems text lineFrom '~' .strikethrough
  let e6 := e5 ++ singleElems text lineFrom '`' .code
  let e7 := e6 ++ linkElems text lineFrom
  let e8 := e7 ++ tagElems text lineFrom
  let e9 := e8 ++ unclosedDoubledElems text lineFrom '*' .bold e8
  let e10 := e9 ++ unclosedItalicElems text lineFrom e9
  let e11 := e10 ++ unclosedDoubledElems text lineFrom '~' .strikethrough e10
  e11 ++ unclosedSingleElems text lineFrom '`' .code e11

/-- Whether an element is an unclosed span of the given kind: its
close marker is the zero-width range that signals a missing closing
marker. -/
def isUnclosedOf (K : MType) (el : MarkdownElement) : Bool :=
  decide (el.type = K) && decide (el.closeMarker.fromPos = el.closeMarker.toPos)

/-- The TS interface HeaderElement. -/
structure HeaderElement where
  level : Nat
  fromPos : Nat
  toPos : Nat
  markerFrom : Nat
  markerTo : Nat
  isComplete : Bool
deriving DecidableEq, Repr

/-- The header parser parseHeaderElement: a complete header needs one to
six hash signs followed by whitespace; otherwise one to six hash signs
followed by a non-space character or end of line give an incomplete
header, unless the whole line is a single hash sign followed by tag
characters only, which is left to tag recognition. -/
def parseHeaderElement (text : List Char) (lineFrom : Nat) :
    Option HeaderElement :=
  let hashRun := (text.takeWhile (fun c => c == '#')).length
  if 1 ≤ hashRun ∧ hashRun ≤ 6 ∧ (text.get? hashRun).any isSpace = true then
    some { level := hashRun
           fromPos := lineFrom
           toPos := lineFrom + text.length
           markerFrom := lineFrom
           markerTo := lineFrom + hashRun + countSpace text hashRun
           isComplete := true }
  else if 1 ≤ hashRun then
    if hashRun = 1 ∧ 1 ≤ (text.drop 1).length ∧ (text.drop 1).all isTagChar = true then
      none
    else
      some { level := min hashRun 6
             fromPos := lineFrom
             toPos := lineFrom + text.length
             markerFrom := lineFrom
             markerTo := lineFrom + min hashRun 6
             isComplete := false }
  else none

/-- The TS union type of ListElement.listType. -/
inductive LType
  | ul | ol | task
deriving DecidableEq, Repr

/-- The TS interface ListElement. -/
structure ListElement where
  listType : LType
  checked : Option Bool := none
  fromPos : Nat
  toPos : Nat
  markerFrom : Nat
  markerTo : Nat
  indent : Nat
deriving DecidableEq, Repr

/-- The list bullet characters of the class [-*+]. -/
def isBullet (c : Char) : Bool :=
  c == '-' || c == '*' || c == '+'

/-- Matcher for the task-list regex: optional leading whitespace, a
bullet, whitespace, a bracketed space or x, whitespace.  Returns the
indent, the length of the whole marker match, and the checked state. -/
def taskListMatch (text : List Char) : Option (Nat × Nat × Bool) :=
  let w := (text.takeWhile isSpace).length
  if (text.get? w).any isBullet = true then
    let s1 := countSpace text (w+1)
    if 1 ≤ s1 ∧ text.get? (w+1+s1) = some '[' then
      match text.get? (w+2+s1) with
      | some c =>
        if (c = ' ' ∨ c = 'x' ∨ c = 'X') ∧ text.get? (w+3+s1) = some ']' then
          let s2 := countSpace text (w+4+s1)
          if 1 ≤ s2 then some (w, w+4+s1+s2, c.toLower = 'x') else none
        else none
      | none => none
    else none
  else none

/-- Matcher for the unordered-list regex: optional leading whitespace, a
bullet, whitespace.  Returns the indent and the marker length. -/
def ulMatch (text : List Char) : Option (Nat × Nat) :=
  let w := (text.takeWhile isSpace).length
  if (text.get? w).any isBullet = true then
    let s1 := countSpace text (w+1)
    if 1 ≤ s1 then some (w, w+1+s1) else none
  else none

/-- Matcher for the ordered-list regex: optional leading whitespace, one
or more digits, a dot, whitespace. -/
def olMatch (text : List Char) : Option (Nat × Nat) :=
  let w := (text.takeWhile isSpace).length
  let d := ((text.drop w).takeWhile Char.isDigit).length
  if 1 ≤ d ∧ text.get? (w+d) = some '.' then
    let s1 := countSpace text (w+d+1)
    if 1 ≤ s1 then some (w, w+d+1+s1) else none
  else none

/-- The list parser parseListElement, trying the task form, then the
unordered form, then the ordered form. -/
def parseListElement (text : List Char) (lineFrom : Nat) :
    Option ListElement :=
  match taskListMatch text with
  | some (w, mlen, chk) =>
    some { listType := .task, checked := some chk
           fromPos := lineFrom, toPos := lineFrom + text.length
           markerFrom := lineFrom + w, markerTo := lineFrom + mlen, indent := w }
  | none =>
    match ulMatch text with
    | some (w, mlen) =>
      some { listType := .ul
             fromPos := lineFrom, toPos := lineFrom + text.length
             markerFrom := lineFrom + w, markerTo := lineFrom + mlen, indent := w }
    | none =>
      match olMatch text with
      | some (w, mlen) =>
        some { listType := .ol
               fromPos := lineFrom, toPos := lineFrom + text.length
               markerFrom := lineFrom + w, markerTo := lineFrom + mlen, indent := w }
      | none => none

/-- The TS interface BlockquoteElement. -/
structure BlockquoteElement where
  fromPos : Nat
  toPos : Nat
  markerFrom : Nat
  markerTo : Nat
deriving DecidableEq, Repr

/-- The blockquote parser parseBlockquoteElement. -/
def parseBlockquoteElement (text : List Char) (lineFrom : Nat) :
    Option BlockquoteElement :=
  if text.get? 0 = some '>' then
    some { fromPos := lineFrom
           toPos := lineFrom + text.length
           markerFrom := lineFrom
           markerTo := lineFrom + 1 + countSpace text 1 }
  else none

/-- One entry of the blog registry supplied by the host. -/
structure Blog where
  id : String
  name : String
deriving DecidableEq, Repr

/-- The host-supplied configuration of createDecorations: whether a
publish callback was supplied, and the blog registry. -/
structure Config where
  hasPublish : Bool
  blogs : List Blog
deriving DecidableEq, Repr

/-- The widget variants attached to replace and widget decorations,
identified by the data their eq methods compare. -/
inductive Widget
  | blogBlockHeader (blockStartLine : Nat) (hasPublish : Bool) (isPublished : Bool)
  | atPostRocket (blockStartLine : Nat) (blogName : String) (isPublished : Bool)
  | simpleText (html : String)
  | image (src : String) (alt : String)
deriving DecidableEq, Repr

/-- The decoration payload: Decoration.replace (with an optional
widget), Decoration.mark, Decoration.line, or Decoration.widget. -/
inductive DecoSpec
  | replace (w : Option Widget)
  | mark (cls : String) (attrs : List (String × String))
  | line (cls : String) (attrs : List (String × String))
  | widget (w : Widget) (side : Int)
deriving DecidableEq, Repr

/-- A decoration together with the offset range it was pushed at.  Line
and widget decorations are ranged at a single offset. -/
structure Deco where
  fromPos : Nat
  toPos : Nat
  spec : DecoSpec
deriving DecidableEq, Repr

/-- The loop-local state of the document walker in createDecorations. -/
structure ScanState where
  inCodeBlock : Bool := false
  inBlogBlock : Bool := false
  inBlogFrontmatter : Bool := false
  blogFrontmatterDashCount : Nat := 0
  blogBlockStartLine : Int := -1
  inAtPost : Bool := false
  atPostBlogName : String := ""
  atPostStartLine : Int := -1
deriving DecidableEq, Repr

/-- The initial walker state at the top of the document. -/
def initialScanState : ScanState := {}

/-- One document line with its 1-based number and absolute offsets. -/
structure Line where
  number : Nat
  fromPos : Nat
  toPos : Nat
  text : List Char
deriving DecidableEq, Repr

/-- Auxiliary recursion for mkLines. -/
def mkLinesAux (n off : Nat) : List String → List Line
  | [] => []
  | s :: rest =>
    ⟨n, off, off + s.length, s.toList⟩ :: mkLinesAux (n+1) (off + s.length + 1) rest

/-- The document as a list of lines, as exposed by the host text
substrate: line numbers start at 1, offsets count a one-character line
break between consecutive lines. -/
def mkLines (doc : List String) : List Line := mkLinesAux 1 0 doc

/-- Test for the reserved metadata prefix regex (at-published followed
by whitespace, case-insensitive) anchored at the start of the line. -/
def matchAtPublished (s : List Char) : Bool :=
  decide ((s.take 10).map Char.toLower = "@published".toList) &&
  (s.get? 10).any isSpace

/-- Test for the published flag regex inside a custom block front
matter: the word published, a colon, optional whitespace, the word
true, anchored at the start of the (trimmed) line. -/
def publishedTrueMatch (s : List Char) : Bool :=
  decide (s.take 10 = "published:".toList) &&
  decide ((s.drop (10 + countSpace s 10)).take 4 = "true".toList)

/-- Test for the pseudo-post published field regex: at-published,
whitespace, the word true, case-insensitive, anchored at start of line. -/
def atPublishedTrueMatch (s : List Char) : Bool :=
  decide ((s.take 10).map Char.toLower = "@published".toList) &&
  decide (1 ≤ countSpace s 10) &&
  decide (((s.drop (10 + countSpace s 10)).take 4).map Char.toLower = "true".toList)

/-- Test for a header-shaped line start: a hash sign followed by an
ASCII letter. -/
def startsHashAlpha (s : List Char) : Bool :=
  decide (s.get? 0 = some '#') && (s.get? 1).any Char.isAlpha

/-- Test for a decorator line start: an at sign followed by an ASCII
letter. -/
def startsAtAlpha (s : List Char) : Bool :=
  decide (s.get? 0 = some '@') && (s.get? 1).any Char.isAlpha

/-- Test for the horizontal-rule regex on the trimmed line: three or
more dashes, asterisks, or underscores and nothing else. -/
def hrMatch (t : List Char) : Bool :=
  decide (3 ≤ t.length) &&
  (t.all (fun c => c == '-') || t.all (fun c => c == '*') || t.all (fun c => c == '_'))

/-- Matcher for the whole-line image regex: an exclamation mark, a
bracketed (possibly empty) alt text, a parenthesised non-empty URL, and
the end of the line.  Returns the alt text and the URL. -/
def imageMatch (s : List Char) : Option (String × String) :=
  if s.get? 0 = some '!' ∧ s.get? 1 = some '[' then
    let k := countNot s 2 ']'
    if s.get? (2+k) = some ']' ∧ s.get? (3+k) = some '(' then
      let m := countNot s (4+k) ')'
      if 1 ≤ m ∧ s.get? (4+k+m) = some ')' ∧ s.length = 5+k+m then
        some (String.mk ((s.drop 2).take k), String.mk ((s.drop (4+k)).take m))
      else none
    else none
  else none

/-- Test for the tail of the pseudo-post opener after the name capture:
one or more whitespace characters, the word post, optional whitespace,
then the end of the line. -/
def isPostTail (cs : List Char) : Bool :=
  let w := (cs.takeWhile isSpace).length
  decide (1 ≤ w) && decide ((cs.drop w).take 4 = "post".toList) &&
  (cs.drop (w+4)).all isSpace

/-- The pseudo-post opener regex: an at sign, a greedy non-empty name
capture, whitespace, the word post, optional trailing whitespace.  The
greedy capture takes the longest name whose remainder still matches. -/
def atPostName (text : List Char) : Option String :=
  if text.get? 0 = some '@' then
    let body := text.drop 1
    match (List.range (body.length + 1)).reverse.find?
        (fun k => decide (1 ≤ k) && isPostTail (body.drop k)) with
    | some k => some (String.mk (body.take k))
    | none => none
  else none

/-- The lookahead performed on the opening custom-block sentinel: scan
the following lines, stopping at the first closing sentinel, for a
trimmed line matching the published flag. -/
def blogLookahead : List Line → Bool
  | [] => false
  | l :: rest =>
    let t := trimChars l.text
    if t = "===".toList then false
    else if publishedTrueMatch t then true
    else blogLookahead rest

/-- The lookahead performed on a pseudo-post opener line: scan the
following lines, stopping at a front-matter delimiter or header-shaped
line, for a pseudo-post published field. -/
def atPostLookahead : List Line → Bool
  | [] => false
  | l :: rest =>
    if trimChars l.text = "---".toList ∨ startsHashAlpha l.text = true then false
    else if atPublishedTrueMatch l.text then true
    else atPostLookahead rest

/-- The decorations emitted for a parsed header on one line. -/
def headerDecos (cursorOnThisLine : Bool) (text : List Char) (lineFrom : Nat) :
    List Deco :=
  match parseHeaderElement text lineFrom with
  | none => []
  | some h =>
    if h.isComplete then
      (if h.markerTo < h.toPos then
        [⟨h.markerTo, h.toPos, .mark ("cm-header cm-header-" ++ toString h.level) []⟩]
       else [])
      ++ (if !cursorOnThisLine then
            [⟨h.markerFrom, h.markerTo, .mark "cm-hidden-marker" []⟩]
          else
            [⟨h.markerFrom, h.markerTo,
              .mark ("cm-header cm-header-" ++ toString h.level ++ " cm-header-marker") []⟩])
    else
      (if h.markerTo < h.toPos then
        [⟨h.markerTo, h.toPos, .mark ("cm-header cm-header-" ++ toString h.level) []⟩]
       else [])
      ++ [⟨h.markerFrom, h.markerTo,
           .mark ("cm-header cm-header-" ++ toString h.level ++ " cm-header-marker") []⟩]

/-- The decorations emitted for a parsed list item on one line. -/
def listDecos (cursorPos : Int) (text : List Char) (lineFrom : Nat) : List Deco :=
  match parseListElement text lineFrom with
  | none => []
  | some l =>
    let cursorInMarker :=
      decide ((l.markerFrom : Int) ≤ cursorPos) && decide (cursorPos ≤ (l.markerTo : Int))
    (if !cursorInMarker then [⟨l.markerFrom, l.markerTo, .mark "cm-hidden-marker" []⟩]
     else [])
    ++ (match l.listType with
        | .ul => [⟨lineFrom, lineFrom, .line "cm-list-bullet" [("data-indent", toString l.indent)]⟩]
        | .ol => [⟨lineFrom, lineFrom, .line "cm-list-number" []⟩]
        | .task => [⟨lineFrom, lineFrom,
            .line (if l.checked = some true then "cm-list-task-checked" else "cm-list-task-unchecked") []⟩])

/-- The decorations emitted for a parsed blockquote on one line. -/
def blockquoteDecos (cursorPos : Int) (text : List Char) (lineFrom : Nat) : List Deco :=
  match parseBlockquoteElement text lineFrom with
  | none => []
  | some b =>
    let cursorInMarker :=
      decide ((b.markerFrom : Int) ≤ cursorPos) && decide (cursorPos ≤ (b.markerTo : Int))
    (if !cursorInMarker then [⟨b.markerFrom, b.markerTo, .mark "cm-hidden-marker" []⟩]
     else [])
    ++ [⟨b.fromPos, b.fromPos, .line "cm-blockquote" []⟩]

/-- The decorations emitted for the inline elements of one line: the
content between the markers is styled per kind and the markers are
hidden unless the cursor sits inside the element (tags excepted). -/
def inlineDecos (cursorPos : Int) (line : Line) : List Deco :=
  (parseInlineElements line.text line.fromPos).flatMap (fun el =>
    let cursorInElement :=
      decide ((el.fromPos : Int) ≤ cursorPos) && decide (cursorPos ≤ (el.toPos : Int))
    let contentFrom := el.openMarker.toPos
    let contentTo := el.closeMarker.fromPos
    let styleD : List Deco :=
      if contentFrom < contentTo then
        match el.type with
        | .bold => [⟨contentFrom, contentTo, .mark "cm-bold" []⟩]
        | .italic => [⟨contentFrom, contentTo, .mark "cm-italic" []⟩]
        | .strikethrough => [⟨contentFrom, contentTo, .mark "cm-strikethrough" []⟩]
        | .code => [⟨contentFrom, contentTo, .mark "cm-inline-code" []⟩]
        | .link => [⟨contentFrom, contentTo, .mark "cm-link" [("data-url", el.linkUrl.getD "")]⟩]
        | .tag => [⟨el.fromPos, el.toPos, .mark "cm-tag-link"
            [("data-tag", String.mk ((line.text.drop (el.fromPos - line.fromPos)).take (el.toPos - el.fromPos)))]⟩]
        | .image => []
      else []
    let markerD : List Deco :=
      if !cursorInElement && !decide (el.type = .tag) then
        (if el.openMarker.fromPos < el.openMarker.toPos then
          [⟨el.openMarker.fromPos, el.openMarker.toPos, .mark "cm-hidden-marker" []⟩]
         else [])
        ++ (if el.closeMarker.fromPos < el.closeMarker.toPos then
          [⟨el.closeMarker.fromPos, el.closeMarker.toPos, .mark "cm-hidden-marker" []⟩]
         else [])
      else []
    styleD ++ markerD)

/-- Whether the cursor offset lies on the given line (the
cursorOnThisLine test of the walker loop). -/
def cursorOnLine (cursorPos : Int) (line : Line) : Bool :=
  decide ((line.fromPos : Int) ≤ cursorPos) && decide (cursorPos ≤ (line.toPos : Int))

/-- The decorations pushed for a reserved metadata line: the full line
content replaced by nothing (when the line is non-empty) and the line
collapsed, with no cursor exception. -/
def atPublishedDecos (line : Line) : List Deco :=
  (if line.fromPos < line.toPos then [⟨line.fromPos, line.toPos, .replace none⟩] else [])
    ++ [⟨line.fromPos, line.fromPos, .line "cm-hidden-line" []⟩]

/-- The branch of the walker loop for a custom-block sentinel line:
toggle the block state, and on an opening sentinel look ahead for the
published flag and replace the line with the block header widget (when
the caret is elsewhere). -/
def blogSentinelBranch (cfg : Config) (cursorPos : Int) (st : ScanState)
    (line : Line) (rest : List Line) : List Deco × ScanState :=
  if !st.inBlogBlock then
    ((if !cursorOnLine cursorPos line then
        [⟨line.fromPos, line.toPos,
          .replace (some (.blogBlockHeader line.number cfg.hasPublish (blogLookahead rest)))⟩]
      else []),
     { st with inBlogBlock := true, inBlogFrontmatter := true,
               blogFrontmatterDashCount := 0, blogBlockStartLine := (line.number : Int) })
  else
    ((if !cursorOnLine cursorPos line then
        [⟨line.fromPos, line.toPos,
          .replace (some (.simpleText "<span style=\"color: #9ca3af; font-size: 0.85em;\">═══</span>"))⟩]
      else []),
     { st with inBlogBlock := false, inBlogFrontmatter := false,
               blogFrontmatterDashCount := 0, blogBlockStartLine := -1 })

/-- The branch of the walker loop for a pseudo-post opener with a
registered blog name: enter the pseudo-post state, style the line, and
(publish callback present, caret elsewhere) append the rocket widget. -/
def atPostOpenBranch (cfg : Config) (cursorPos : Int) (st : ScanState)
    (line : Line) (rest : List Line) : List Deco × ScanState :=
  ([⟨line.fromPos, line.toPos, .mark "cm-at-field" []⟩]
    ++ (if !cursorOnLine cursorPos line && cfg.hasPublish then
          [⟨line.toPos, line.toPos,
            .widget (.atPostRocket line.number ((atPostName line.text).getD "")
              (atPostLookahead rest)) 1⟩]
        else []),
   { st with inAtPost := true, atPostBlogName := (atPostName line.text).getD "",
             atPostStartLine := (line.number : Int) })

/-- The tail of the walker loop body, reached after the metadata,
sentinel, front-matter-dash and pseudo-post-opener branches have all
declined, operating on the state as possibly updated by the
pseudo-post exit check. -/
def processPlainLine (cursorPos : Int) (st1 : ScanState)
    (line : Line) : List Deco × ScanState :=
  if st1.inAtPost && startsAtAlpha line.text then
    ((if !cursorOnLine cursorPos line then
        [⟨line.fromPos, line.toPos, .mark "cm-at-field" []⟩] else []), st1)
  else if !st1.inAtPost && !st1.inBlogBlock && !st1.inCodeBlock && startsAtAlpha line.text then
    ((if !cursorOnLine cursorPos line then
        [⟨line.fromPos, line.toPos, .mark "cm-at-field" []⟩] else []), st1)
  else if line.text.take 3 = "```".toList then
    ((if !cursorOnLine cursorPos line then
        [⟨line.fromPos, line.toPos,
          .replace (some (.simpleText
            ("<span style=\"color: #9ca3af; font-size: 0.75em;\">"
              ++ (if (line.text.drop 3).length ≠ 0 then
                    "Code (" ++ String.mk (line.text.drop 3) ++ ")"
                  else "Code")
              ++ "</span>")))⟩]
      else []),
     { st1 with inCodeBlock := !st1.inCodeBlock })
  else if st1.inCodeBlock then
    ([⟨line.fromPos, line.toPos, .mark "cm-code-block-line" []⟩], st1)
  else if st1.inBlogFrontmatter then ([], st1)
  else if trimChars line.text = [] then ([], st1)
  else if hrMatch (trimChars line.text) then
    ((if !cursorOnLine cursorPos line then
        [⟨line.fromPos, line.toPos, .mark "cm-horizontal-rule" []⟩] else []), st1)
  else if (imageMatch line.text).isSome ∧ cursorOnLine cursorPos line = false then
    ((match imageMatch line.text with
      | some (alt, url) => [⟨line.fromPos, line.toPos, .replace (some (.image url alt))⟩]
      | none => []), st1)
  else
    (headerDecos (cursorOnLine cursorPos line) line.text line.fromPos
      ++ listDecos cursorPos line.text line.fromPos
      ++ blockquoteDecos cursorPos line.text line.fromPos
      ++ inlineDecos cursorPos line,
     st1)

/-- The pseudo-post exit check applied before the plain-line branches:
a front-matter delimiter or header-shaped line leaves the pseudo-post
state. -/
def atPostExitState (st : ScanState) (line : Line) : ScanState :=
  if st.inAtPost &&
     (decide (trimChars line.text = "---".toList) || startsHashAlpha line.text) then
    { st with inAtPost := false, atPostBlogName := "", atPostStartLine := -1 }
  else st

/-- One iteration of the walker loop of createDecorations: given the
state, the current line and the remaining lines (used only for the
lookaheads), the decorations pushed for the line and the state passed to
the next line.  The branch structure mirrors the source loop body. -/
def processLine (cfg : Config) (cursorPos : Int) (st : ScanState)
    (line : Line) (rest : List Line) : List Deco × ScanState :=
  if matchAtPublished line.text then
    (atPublishedDecos line, st)
  else if trimChars line.text = "===".toList then
    blogSentinelBranch cfg cursorPos st line rest
  else if st.inBlogBlock = true ∧ trimChars line.text = "---".toList then
    ([], { st with blogFrontmatterDashCount := st.blogFrontmatterDashCount + 1,
                   inBlogFrontmatter :=
                     if 2 ≤ st.blogFrontmatterDashCount + 1 then false
                     else st.inBlogFrontmatter })
  else if ((atPostName line.text).isSome && !st.inAtPost && !st.inBlogBlock && !st.inCodeBlock) = true ∧
          cfg.blogs.any (fun b => decide (b.name = (atPostName line.text).getD "")) = true then
    atPostOpenBranch cfg cursorPos st line rest
  else
    processPlainLine cursorPos (atPostExitState st line) line

/-- The walker loop: process the lines top to bottom, threading the
scan state and collecting every decoration pushed. -/
def walkLines (cfg : Config) (cursorPos : Int) : ScanState → List Line → List Deco
  | _, [] => []
  | st, l :: rest =>
    let step := processLine cfg cursorPos st l rest
    step.1 ++ walkLines cfg cursorPos step.2 rest

/-- The sort key of the final sort of createDecorations: non-decreasing
start offset. -/
def decoLE (a b : Deco) : Prop := a.fromPos ≤ b.fromPos

instance : DecidableRel decoLE := fun a b => Nat.decLe a.fromPos b.fromPos

instance : IsTotal Deco decoLE := ⟨fun a b => Nat.le_total a.fromPos b.fromPos⟩

instance : IsTrans Deco decoLE := ⟨fun _ _ _ h₁ h₂ => Nat.le_trans h₁ h₂⟩

/-- The function createDecorations: walk the whole document and sort
the collected decorations by start offset before handing them to the
host substrate. -/
def createDecorations (cfg : Config) (cursorPos : Int) (doc : List String) :
    List Deco :=
  List.insertionSort decoLE (walkLines cfg cursorPos initialScanState (mkLines doc))

/-- The scan state reached after processing a prefix of the document,
the remaining lines being suff (which the prefix lines see as the tail
of their lookaheads). -/
def stateThrough (cfg : Config) (cursorPos : Int) (st : ScanState) :
    List Line → List Line → ScanState
  | [], _ => st
  | l :: ls, suff =>
    stateThrough cfg cursorPos (processLine cfg cursorPos st l (ls ++ suff)).2 ls suff

/-- The post-update editor state visible to the view plugin: the
document, the selection head, and the value of the cursor position
state field. -/
structure EditorSnapshot where
  doc : List String
  head : Int
  cursorField : Int
deriving DecidableEq, Repr

/-- The instance state of the live preview view plugin. -/
structure PluginState where
  decorations : List Deco
  lastSelectionLine : Nat
deriving DecidableEq, Repr

/-- The 1-based line number containing an offset, as doc.lineAt
reports it (clamped to the line count for out-of-range offsets). -/
def lineNumberAt (doc : List String) (pos : Int) : Nat :=
  match (mkLines doc).find? (fun l => decide (pos ≤ (l.toPos : Int))) with
  | some l => l.number
  | none => (mkLines doc).length

/-- The update method of the live preview plugin: always rebuild on a
document change; on a selection change rebuild only when the caret's
line number differs from the stored one. -/
def pluginUpdate (cfg : Config) (self : PluginState)
    (docChanged selectionSet : Bool) (es : EditorSnapshot) : PluginState :=
  if docChanged then
    { decorations := createDecorations cfg es.cursorField es.doc
      lastSelectionLine := lineNumberAt es.doc es.head }
  else if selectionSet then
    let currentLine := lineNumberAt es.doc es.head
    if currentLine ≠ self.lastSelectionLine then
      { decorations := createDecorations cfg es.cursorField es.doc
        lastSelectionLine := currentLine }
    else self
  else self

/-! ## Theorems -/

/-- C1, counterexample: on the single-line input of doubled asterisks
around a starred interior, the scanner returns no bold span at all (the
closed-bold pattern forbids asterisks inside its content and the
unclosed-bold candidate at the trailing markers has empty content), and
it does return an italic span for the middle letter — contradicting the
claim that the whole span is recognized as bold with no italic span. -/
theorem c1_counterexample :
    (parseInlineElements "**a*b*c**".toList 0).filter
        (fun el => decide (el.type = MType.bold)) = []
    ∧ (⟨.italic, 3, 6, ⟨3, 4⟩, ⟨5, 6⟩, none⟩ : MarkdownElement)
        ∈ parseInlineElements "**a*b*c**".toList 0 := by
  decide

/-- C1, amended: for the single-line input of doubled asterisks around
a starred interior, the scanner returns exactly one span, an italic
span over the middle letter, and in particular no bold span. -/
theorem c1_bold_over_italic_amended :
    parseInlineElements "**a*b*c**".toList 0 =
      [⟨.italic, 3, 6, ⟨3, 4⟩, ⟨5, 6⟩, none⟩] := by
  decide

/-- C3: a single hash followed directly by alphanumeric text yields no
header element and is recognized as a tag span; a hash followed by a
space yields a complete header of level one; two hashes alone yield an
incomplete header of level two. -/
theorem c3_tag_vs_header :
    parseHeaderElement "#project".toList 0 = none
    ∧ parseInlineElements "#project".toList 0 =
        [⟨.tag, 0, 8, ⟨0, 0⟩, ⟨8, 8⟩, none⟩]
    ∧ parseHeaderElement "# project".toList 0 =
        some ⟨1, 0, 9, 0, 2, true⟩
    ∧ parseHeaderElement "##".toList 0 =
        some ⟨2, 0, 2, 0, 2, false⟩ := by
  decide

/-- C4: an opening bold marker with text and no closing marker yields a
bold span from the marker to end of line with a zero-width close marker
at line end; the closed form yields a closed bold span, and with the
cursor on another line both of its markers receive hidden-marker
(suppress) decorations from the walker. -/
theorem c4_unclosed_fill_in :
    parseInlineElements "**hello".toList 0 =
      [⟨.bold, 0, 7, ⟨0, 2⟩, ⟨7, 7⟩, none⟩]
    ∧ parseInlineElements "**hello**".toList 0 =
      [⟨.bold, 0, 9, ⟨0, 2⟩, ⟨7, 9⟩, none⟩]
    ∧ (⟨0, 2, .mark "cm-hidden-marker" []⟩ : Deco)
        ∈ createDecorations ⟨false, []⟩ 10 ["**hello**", "x"]
    ∧ (⟨7, 9, .mark "cm-hidden-marker" []⟩ : Deco)
        ∈ createDecorations ⟨false, []⟩ 10 ["**hello**", "x"] := by
  decide

/-- C8: for every configuration, cursor position and document, the
final decoration collection handed to the host is sorted non-decreasing
by start offset. -/
theorem c8_sorted_output :
    ∀ (cfg : Config) (cursorPos : Int) (doc : List String),
      List.Sorted decoLE (createDecorations cfg cursorPos doc) := by
  intro cfg cur doc
  exact List.sorted_insertionSort decoLE _

/-- C7: the plugin update rebuilds the stored decoration set on every
document change; on a selection-only change it rebuilds exactly when
the caret's line number after the change differs from its line number
before the change, and a caret move within the same line leaves the
plugin state (hence the stored annotation set) unchanged. -/
theorem c7_rescan_trigger :
    ∀ (cfg : Config) (st : PluginState) (es : EditorSnapshot)
      (selectionSet : Bool) (prevHead : Int),
      (pluginUpdate cfg st true selectionSet es).decorations
        = createDecorations cfg es.cursorField es.doc
      ∧ (st.lastSelectionLine = lineNumberAt es.doc prevHead →
          (lineNumberAt es.doc es.head ≠ lineNumberAt es.doc prevHead →
            (pluginUpdate cfg st false true es).decorations
              = createDecorations cfg es.cursorField es.doc)
          ∧ (lineNumberAt es.doc es.head = lineNumberAt es.doc prevHead →
            pluginUpdate cfg st false true es = st)) := by
  intro cfg st es selectionSet prevHead
  refine ⟨rfl, fun hprev => ⟨fun hne => ?_, fun heq => ?_⟩⟩
  · have hcond : lineNumberAt es.doc es.head ≠ st.lastSelectionLine := by
      rw [hprev]; exact hne
    simp [pluginUpdate, hcond]
  · have hcond : lineNumberAt es.doc es.head = st.lastSelectionLine := by
      rw [hprev, heq]
    simp [pluginUpdate, hcond]

/-- C7, witness: a concrete same-line caret move leaves the plugin
state unchanged, and a concrete document change rebuilds. -/
theorem c7_rescan_trigger_witness :
    (⟨[], 1⟩ : PluginState).lastSelectionLine = lineNumberAt ["ab", "cd"] 0
    ∧ pluginUpdate ⟨false, []⟩ ⟨[], 1⟩ false true ⟨["ab", "cd"], 2, 2⟩ = ⟨[], 1⟩ := by
  have h := c7_rescan_trigger ⟨false, []⟩ ⟨[], 1⟩ ⟨["ab", "cd"], 2, 2⟩ true 0
  exact ⟨by decide, (h.2 (by decide)).2 (by decide)⟩

/-- Helper: the branches of the plain-line tail never change the
pseudo-post flag. -/
theorem processPlainLine_inAtPost (cursorPos : Int)
    (st1 : ScanState) (line : Line) :
    ((processPlainLine cursorPos st1 line).2).inAtPost = st1.inAtPost := by
  rw [processPlainLine.eq_def]
  repeat' (first | rfl | split)

/-- Helper: the custom-block sentinel branch never changes the
pseudo-post flag. -/
theorem blogSentinelBranch_inAtPost (cfg : Config) (cursorPos : Int)
    (st : ScanState) (line : Line) (rest : List Line) :
    ((blogSentinelBranch cfg cursorPos st line rest).2).inAtPost = st.inAtPost := by
  rw [blogSentinelBranch.eq_def]
  repeat' (first | rfl | split)

/-- C9: a false-to-true transition of the pseudo-post flag in one step
of the walker happens only on a line whose pseudo-post opener name is
the name of some entry of the supplied blog registry, and only when the
walker is neither inside a custom block nor inside a code fence (and,
by hypothesis, not already inside a pseudo-post). -/
theorem c9_pseudo_post_entry_guard :
    ∀ (cfg : Config) (cursorPos : Int) (st : ScanState) (line : Line)
      (rest : List Line),
      st.inAtPost = false →
      ((processLine cfg cursorPos st line rest).2).inAtPost = true →
      ∃ nm, atPostName line.text = some nm ∧
        cfg.blogs.any (fun b => decide (b.name = nm)) = true ∧
        st.inBlogBlock = false ∧ st.inCodeBlock = false := by
  intro cfg cursorPos st line rest h0 h1
  rw [processLine.eq_def] at h1
  split at h1
  · dsimp only at h1; rw [h0] at h1; exact Bool.noConfusion h1
  · split at h1
    · rw [blogSentinelBranch_inAtPost, h0] at h1; exact Bool.noConfusion h1
    · split at h1
      · dsimp only at h1; rw [h0] at h1; exact Bool.noConfusion h1
      · split at h1
        · rename_i hc
          obtain ⟨hcond, hany⟩ := hc
          simp only [Bool.and_eq_true, Bool.not_eq_true'] at hcond
          obtain ⟨⟨⟨hsome, _⟩, hblog⟩, hcode⟩ := hcond
          obtain ⟨nm, hnm⟩ := Option.isSome_iff_exists.mp hsome
          refine ⟨nm, hnm, ?_, hblog, hcode⟩
          simpa [hnm] using hany
        · rw [processPlainLine_inAtPost] at h1
          rw [atPostExitState.eq_def] at h1
          split at h1
          · dsimp only at h1; exact Bool.noConfusion h1
          · rw [h0] at h1; exact Bool.noConfusion h1

/-- C9, witness: with a one-entry registry and a clear walker state, a
matching opener line does enter the pseudo-post state, and the guard
conditions of the theorem all hold there. -/
theorem c9_pseudo_post_entry_guard_witness :
    initialScanState.inAtPost = false
    ∧ ((processLine ⟨true, [⟨"1", "b"⟩]⟩ (-1) initialScanState
          ⟨1, 0, 7, "@b post".toList⟩ []).2).inAtPost = true
    ∧ ∃ nm, atPostName ("@b post".toList) = some nm ∧
        (Config.mk true [⟨"1", "b"⟩]).blogs.any (fun b => decide (b.name = nm)) = true ∧
        initialScanState.inBlogBlock = false ∧ initialScanState.inCodeBlock = false := by
  refine ⟨by decide, by decide, ?_⟩
  exact c9_pseudo_post_entry_guard ⟨true, [⟨"1", "b"⟩]⟩ (-1) initialScanState
    ⟨1, 0, 7, "@b post".toList⟩ [] (by decide) (by decide)

/-- Helper: past the end of the scanned text, the exec loop reports no
match. -/
theorem execAllAux_eq_nil {len : Nat} {step : Nat → Option Nat} :
    ∀ (fuel p : Nat), len ≤ p → execAllAux len step fuel p = [] := by
  intro fuel p hp
  cases fuel with
  | zero => rfl
  | succ n => simp [execAllAux, Nat.not_lt.mpr hp]

/-- Helper: every position reported by the exec loop is one where the
step matcher fires. -/
theorem mem_execAllAux {len : Nat} {step : Nat → Option Nat} :
    ∀ {fuel p q : Nat}, q ∈ execAllAux len step fuel p → ∃ L, step q = some L := by
  intro fuel
  induction fuel with
  | zero => intro p q h; cases h
  | succ n ih =>
    intro p q h
    rw [execAllAux] at h
    by_cases hp : p < len
    · rw [if_pos hp] at h
      cases hstep : step p with
      | some L =>
        rw [hstep] at h
        rcases List.mem_cons.mp h with rfl | h'
        · exact ⟨L, hstep⟩
        · exact ih h'
      | none =>
        rw [hstep] at h
        exact ih h
    · rw [if_neg hp] at h
      cases h

/-- Helper: membership form of mem_execAllAux for execAll. -/
theorem mem_execAll {len : Nat} {step : Nat → Option Nat} {p q : Nat}
    (h : q ∈ execAll len step p) : ∃ L, step q = some L :=
  mem_execAllAux h

/-- Helper: a matcher whose every match reaches the end of the text can
fire at most once per exec loop. -/
theorem execAllAux_length_le_one {len : Nat} {step : Nat → Option Nat}
    (hstep : ∀ p L, step p = some L → len ≤ p + L) :
    ∀ (fuel p : Nat), (execAllAux len step fuel p).length ≤ 1 := by
  intro fuel
  induction fuel with
  | zero => intro p; simp [execAllAux]
  | succ n ih =>
    intro p
    rw [execAllAux]
    by_cases hp : p < len
    · rw [if_pos hp]
      cases hstep' : step p with
      | some L =>
        have hend : len ≤ p + max L 1 := by
          have := hstep p L hstep'
          have := Nat.le_max_left L 1
          omega
        simp [execAllAux_eq_nil n (p + max L 1) hend]
      | none => exact ih (p + 1)
    · rw [if_neg hp]
      simp

/-- Helper: at most one match per line for an end-anchored matcher. -/
theorem execAll_length_le_one {len : Nat} {step : Nat → Option Nat}
    (hstep : ∀ p L, step p = some L → len ≤ p + L) (p : Nat) :
    (execAll len step p).length ≤ 1 :=
  execAllAux_length_le_one hstep _ p

/-- Helper: an unclosed doubled-marker match always reaches the end of
the line. -/
theorem unclosedDoubledMatch_len {s : List Char} {m : Char} {p L : Nat}
    (h : unclosedDoubledMatch s m p = some L) : s.length ≤ p + L := by
  unfold unclosedDoubledMatch at h
  split at h
  · rename_i hc
    obtain ⟨hlt, -⟩ := List.get?_eq_some.mp hc.1
    injection h with h'
    omega
  · cases h

/-- Helper: an unclosed italic match always reaches the end of the line. -/
theorem unclosedItalicMatch_len {s : List Char} {p L : Nat}
    (h : unclosedItalicMatch s p = some L) : s.length ≤ p + L := by
  unfold unclosedItalicMatch at h
  split at h
  · rename_i hc
    obtain ⟨hlt, -⟩ := List.get?_eq_some.mp hc.1
    injection h with h'
    omega
  · cases h

/-- Helper: an unclosed single-marker match always reaches the end of
the line. -/
theorem unclosedSingleMatch_len {s : List Char} {m : Char} {p L : Nat}
    (h : unclosedSingleMatch s m p = some L) : s.length ≤ p + L := by
  unfold unclosedSingleMatch at h
  split at h
  · rename_i hc
    obtain ⟨hlt, -⟩ := List.get?_eq_some.mp hc.1
    injection h with h'
    omega
  · cases h

/-- Helper: shape of the elements of a closed doubled-marker phase:
the stated type and a close marker of width two. -/
theorem doubledElems_shape {s : List Char} {lf : Nat} {m : Char} {ty : MType}
    {el : MarkdownElement} (h : el ∈ doubledElems s lf m ty) :
    el.type = ty ∧ el.closeMarker.fromPos < el.closeMarker.toPos := by
  simp only [doubledElems, List.mem_map] at h
  obtain ⟨p, -, rfl⟩ := h
  exact ⟨rfl, by dsimp only; omega⟩

/-- Helper: shape of the elements of the closed inline-code phase. -/
theorem singleElems_shape {s : List Char} {lf : Nat} {m : Char} {ty : MType}
    {el : MarkdownElement} (h : el ∈ singleElems s lf m ty) :
    el.type = ty ∧ el.closeMarker.fromPos < el.closeMarker.toPos := by
  simp only [singleElems, List.mem_map] at h
  obtain ⟨p, -, rfl⟩ := h
  exact ⟨rfl, by dsimp only; omega⟩

/-- Helper: shape of the elements of the closed asterisk italic phase:
italic type, close marker of width one, and the overlap filter against
the previously pushed bold elements passed. -/
theorem italicStarElems_shape {s : List Char} {lf : Nat}
    {prev : List MarkdownElement} {el : MarkdownElement}
    (h : el ∈ italicStarElems s lf prev) :
    ∃ p, (∃ L, italicStarMatch s p = some L) ∧
      el.type = .italic ∧
      el.fromPos = lf + p ∧
      el.toPos = lf + p + (countNot s (p+1) '*' + 2) ∧
      el.closeMarker.fromPos < el.closeMarker.toPos ∧
      (prev.any (fun b =>
        decide (b.type = .bold) &&
        !(decide (lf + p + (countNot s (p+1) '*' + 2) ≤ b.fromPos) ||
          decide (lf + p ≥ b.toPos))) = false) := by
  simp only [italicStarElems, List.mem_filterMap] at h
  obtain ⟨p, hmem, hp⟩ := h
  split at hp
  · cases hp
  · rename_i hov
    injection hp with hp'
    subst hp'
    refine ⟨p, mem_execAll hmem, rfl, rfl, rfl, by dsimp only; omega, ?_⟩
    simpa using hov

/-- Helper: shape of the elements of the closed underscore italic
phase: italic type, close marker of width one, underscore at the start
position. -/
theorem italicUnderscoreElems_shape {s : List Char} {lf : Nat}
    {el : MarkdownElement} (h : el ∈ italicUnderscoreElems s lf) :
    ∃ p, s.get? p = some '_' ∧ el.type = .italic ∧ el.fromPos = lf + p ∧
      el.closeMarker.fromPos < el.closeMarker.toPos := by
  simp only [italicUnderscoreElems, List.mem_map] at h
  obtain ⟨p, hmem, rfl⟩ := h
  obtain ⟨L, hL⟩ := mem_execAll hmem
  unfold italicUnderscoreMatch at hL
  split at hL
  · rename_i hc
    exact ⟨p, hc.1, rfl, rfl, by dsimp only; omega⟩
  · cases hL

/-- Helper: shape of the elements of the link phase. -/
theorem linkElems_shape {s : List Char} {lf : Nat} {el : MarkdownElement}
    (h : el ∈ linkElems s lf) :
    el.type = .link ∧ el.closeMarker.fromPos < el.closeMarker.toPos := by
  simp only [linkElems, List.mem_map] at h
  obtain ⟨p, -, rfl⟩ := h
  exact ⟨rfl, by dsimp only; omega⟩

/-- Helper: shape of the elements of the tag phase. -/
theorem tagElems_shape {s : List Char} {lf : Nat} {el : MarkdownElement}
    (h : el ∈ tagElems s lf) : el.type = .tag := by
  simp only [tagElems, List.mem_map] at h
  obtain ⟨p, -, rfl⟩ := h
  rfl

/-- Helper: shape of the elements of an unclosed doubled-marker phase:
the stated type and a zero-width close marker at line end. -/
theorem unclosedDoubledElems_shape {s : List Char} {lf : Nat} {m : Char}
    {ty : MType} {prev : List MarkdownElement} {el : MarkdownElement}
    (h : el ∈ unclosedDoubledElems s lf m ty prev) :
    el.type = ty ∧ el.closeMarker.fromPos = el.closeMarker.toPos := by
  simp only [unclosedDoubledElems, List.mem_filterMap] at h
  obtain ⟨p, -, hp⟩ := h
  split at hp
  · injection hp with hp'
    subst hp'
    exact ⟨rfl, rfl⟩
  · cases hp

/-- Helper: shape of the elements of the unclosed italic phase. -/
theorem unclosedItalicElems_shape {s : List Char} {lf : Nat}
    {prev : List MarkdownElement} {el : MarkdownElement}
    (h : el ∈ unclosedItalicElems s lf prev) :
    el.type = .italic ∧ el.closeMarker.fromPos = el.closeMarker.toPos := by
  simp only [unclosedItalicElems, List.mem_filterMap] at h
  obtain ⟨p, -, hp⟩ := h
  split at hp
  · injection hp with hp'
    subst hp'
    exact ⟨rfl, rfl⟩
  · cases hp

/-- Helper: shape of the elements of the unclosed inline-code phase. -/
theorem unclosedSingleElems_shape {s : List Char} {lf : Nat} {m : Char}
    {ty : MType} {prev : List MarkdownElement} {el : MarkdownElement}
    (h : el ∈ unclosedSingleElems s lf m ty prev) :
    el.type = ty ∧ el.closeMarker.fromPos = el.closeMarker.toPos := by
  simp only [unclosedSingleElems, List.mem_filterMap] at h
  obtain ⟨p, -, hp⟩ := h
  split at hp
  · injection hp with hp'
    subst hp'
    exact ⟨rfl, rfl⟩
  · cases hp

/-- Helper: a phase whose every element fails a predicate contributes
no count. -/
theorem countP_zero_of {α : Type} (p : α → Bool) {l : List α}
    (h : ∀ a ∈ l, p a = false) : l.countP p = 0 :=
  List.countP_eq_zero.mpr (fun a ha => by simp [h a ha])

/-- Helper: an unclosed doubled-marker phase has at most one element. -/
theorem unclosedDoubledElems_length_le_one (s : List Char) (lf : Nat)
    (m : Char) (ty : MType) (prev : List MarkdownElement) :
    (unclosedDoubledElems s lf m ty prev).length ≤ 1 := by
  refine le_trans (List.length_filterMap_le _ _) ?_
  exact execAll_length_le_one (fun p L h => unclosedDoubledMatch_len h) 0

/-- Helper: the unclosed italic phase has at most one element. -/
theorem unclosedItalicElems_length_le_one (s : List Char) (lf : Nat)
    (prev : List MarkdownElement) :
    (unclosedItalicElems s lf prev).length ≤ 1 := by
  refine le_trans (List.length_filterMap_le _ _) ?_
  exact execAll_length_le_one (fun p L h => unclosedItalicMatch_len h) 0

/-- Helper: an unclosed single-marker phase has at most one element. -/
theorem unclosedSingleElems_length_le_one (s : List Char) (lf : Nat)
    (m : Char) (ty : MType) (prev : List MarkdownElement) :
    (unclosedSingleElems s lf m ty prev).length ≤ 1 := by
  refine le_trans (List.length_filterMap_le _ _) ?_
  exact execAll_length_le_one (fun p L h => unclosedSingleMatch_len h) 0

/-- Helper: a closed element (close marker of positive width) is never
counted as unclosed. -/
theorem isUnclosedOf_false_of_closed {K : MType} {el : MarkdownElement}
    (h : el.closeMarker.fromPos < el.closeMarker.toPos) :
    isUnclosedOf K el = false := by
  unfold isUnclosedOf
  have : decide (el.closeMarker.fromPos = el.closeMarker.toPos) = false := by
    simp
    omega
  simp [this]

/-- Helper: an element of another kind is never counted as unclosed of
this kind. -/
theorem isUnclosedOf_false_of_ne {K K' : MType} {el : MarkdownElement}
    (hty : el.type = K') (hne : K' ≠ K) : isUnclosedOf K el = false := by
  unfold isUnclosedOf
  have : decide (el.type = K) = false := by
    simp [hty]
    exact hne
  simp [this]

/-- Helper: closed doubled-marker phases contain no unclosed element. -/
theorem countP_doubledElems_zero (K : MType) (s : List Char) (lf : Nat)
    (m : Char) (ty : MType) :
    (doubledElems s lf m ty).countP (isUnclosedOf K) = 0 :=
  countP_zero_of _ (fun _ h => isUnclosedOf_false_of_closed (doubledElems_shape h).2)

/-- Helper: the closed inline-code phase contains no unclosed element. -/
theorem countP_singleElems_zero (K : MType) (s : List Char) (lf : Nat)
    (m : Char) (ty : MType) :
    (singleElems s lf m ty).countP (isUnclosedOf K) = 0 :=
  countP_zero_of _ (fun _ h => isUnclosedOf_false_of_closed (singleElems_shape h).2)

/-- Helper: the closed asterisk italic phase contains no unclosed
element. -/
theorem countP_italicStarElems_zero (K : MType) (s : List Char) (lf : Nat)
    (prev : List MarkdownElement) :
    (italicStarElems s lf prev).countP (isUnclosedOf K) = 0 :=
  countP_zero_of _ (fun _ h => by
    obtain ⟨p, -, -, -, -, hlt, -⟩ := italicStarElems_shape h
    exact isUnclosedOf_false_of_closed hlt)

/-- Helper: the closed underscore italic phase contains no unclosed
element. -/
theorem countP_italicUnderscoreElems_zero (K : MType) (s : List Char) (lf : Nat) :
    (italicUnderscoreElems s lf).countP (isUnclosedOf K) = 0 :=
  countP_zero_of _ (fun _ h => by
    obtain ⟨p, -, -, -, hlt⟩ := italicUnderscoreElems_shape h
    exact isUnclosedOf_false_of_closed hlt)

/-- Helper: the link phase contains no unclosed element. -/
theorem countP_linkElems_zero (K : MType) (s : List Char) (lf : Nat) :
    (linkElems s lf).countP (isUnclosedOf K) = 0 :=
  countP_zero_of _ (fun _ h => isUnclosedOf_false_of_closed (linkElems_shape h).2)

/-- Helper: the tag phase contributes no unclosed element of the four
marker kinds. -/
theorem countP_tagElems_zero (K : MType) (hne : MType.tag ≠ K)
    (s : List Char) (lf : Nat) :
    (tagElems s lf).countP (isUnclosedOf K) = 0 :=
  countP_zero_of _ (fun _ h => isUnclosedOf_false_of_ne (tagElems_shape h) hne)

/-- Helper: an unclosed doubled-marker phase of another kind
contributes no unclosed element of this kind. -/
theorem countP_unclosedDoubledElems_ne (K : MType) (s : List Char) (lf : Nat)
    (m : Char) (ty : MType) (hne : ty ≠ K) (prev : List MarkdownElement) :
    (unclosedDoubledElems s lf m ty prev).countP (isUnclosedOf K) = 0 :=
  countP_zero_of _ (fun _ h =>
    isUnclosedOf_false_of_ne (unclosedDoubledElems_shape h).1 hne)

/-- Helper: the unclosed italic phase contributes no unclosed element
of another kind. -/
theorem countP_unclosedItalicElems_ne (K : MType) (hne : MType.italic ≠ K)
    (s : List Char) (lf : Nat) (prev : List MarkdownElement) :
    (unclosedItalicElems s lf prev).countP (isUnclosedOf K) = 0 :=
  countP_zero_of _ (fun _ h =>
    isUnclosedOf_false_of_ne (unclosedItalicElems_shape h).1 hne)

/-- Helper: an unclosed single-marker phase of another kind contributes
no unclosed element of this kind. -/
theorem countP_unclosedSingleElems_ne (K : MType) (s : List Char) (lf : Nat)
    (m : Char) (ty : MType) (hne : ty ≠ K) (prev : List MarkdownElement) :
    (unclosedSingleElems s lf m ty prev).countP (isUnclosedOf K) = 0 :=
  countP_zero_of _ (fun _ h =>
    isUnclosedOf_false_of_ne (unclosedSingleElems_shape h).1 hne)

/-- C10: on every line, the inline span scanner emits at most one
unclosed span (zero-width close marker at line end) per marker kind:
bold, italic, strikethrough, and inline code; duplicate or overlapping
unclosed emissions of one kind on a line are therefore impossible. -/
theorem c10_at_most_one_unclosed_per_kind :
    ∀ (text : List Char) (lineFrom : Nat),
      ((parseInlineElements text lineFrom).countP (isUnclosedOf .bold) ≤ 1)
      ∧ ((parseInlineElements text lineFrom).countP (isUnclosedOf .italic) ≤ 1)
      ∧ ((parseInlineElements text lineFrom).countP (isUnclosedOf .strikethrough) ≤ 1)
      ∧ ((parseInlineElements text lineFrom).countP (isUnclosedOf .code) ≤ 1) := by
  intro text lineFrom
  refine ⟨?_, ?_, ?_, ?_⟩
  · simp only [parseInlineElements, closedBoldPhase, List.countP_append,
      countP_doubledElems_zero, countP_singleElems_zero,
      countP_italicStarElems_zero, countP_italicUnderscoreElems_zero,
      countP_linkElems_zero,
      countP_tagElems_zero MType.bold (by decide),
      countP_unclosedItalicElems_ne MType.bold (by decide),
      countP_unclosedDoubledElems_ne MType.bold text lineFrom '~' MType.strikethrough (by decide),
      countP_unclosedSingleElems_ne MType.bold text lineFrom '`' MType.code (by decide),
      Nat.zero_add, Nat.add_zero]
    exact le_trans (List.countP_le_length _)
      (unclosedDoubledElems_length_le_one _ _ _ _ _)
  · simp only [parseInlineElements, closedBoldPhase, List.countP_append,
      countP_doubledElems_zero, countP_singleElems_zero,
      countP_italicStarElems_zero, countP_italicUnderscoreElems_zero,
      countP_linkElems_zero,
      countP_tagElems_zero MType.italic (by decide),
      countP_unclosedDoubledElems_ne MType.italic text lineFrom '*' MType.bold (by decide),
      countP_unclosedDoubledElems_ne MType.italic text lineFrom '~' MType.strikethrough (by decide),
      countP_unclosedSingleElems_ne MType.italic text lineFrom '`' MType.code (by decide),
      Nat.zero_add, Nat.add_zero]
    exact le_trans (List.countP_le_length _)
      (unclosedItalicElems_length_le_one _ _ _)
  · simp only [parseInlineElements, closedBoldPhase, List.countP_append,
      countP_doubledElems_zero, countP_singleElems_zero,
      countP_italicStarElems_zero, countP_italicUnderscoreElems_zero,
      countP_linkElems_zero,
      countP_tagElems_zero MType.strikethrough (by decide),
      countP_unclosedDoubledElems_ne MType.strikethrough text lineFrom '*' MType.bold (by decide),
      countP_unclosedItalicElems_ne MType.strikethrough (by decide),
      countP_unclosedSingleElems_ne MType.strikethrough text lineFrom '`' MType.code (by decide),
      Nat.zero_add, Nat.add_zero]
    exact le_trans (List.countP_le_length _)
      (unclosedDoubledElems_length_le_one _ _ _ _ _)
  · simp only [parseInlineElements, closedBoldPhase, List.countP_append,
      countP_doubledElems_zero, countP_singleElems_zero,
      countP_italicStarElems_zero, countP_italicUnderscoreElems_zero,
      countP_linkElems_zero,
      countP_tagElems_zero MType.code (by decide),
      countP_unclosedDoubledElems_ne MType.code text lineFrom '*' MType.bold (by decide),
      countP_unclosedDoubledElems_ne MType.code text lineFrom '~' MType.strikethrough (by decide),
      countP_unclosedItalicElems_ne MType.code (by decide),
      Nat.zero_add, Nat.add_zero]
    exact le_trans (List.countP_le_length _)
      (unclosedSingleElems_length_le_one _ _ _ _ _)

/-- Helper: every line produced by mkLines ends at its start plus its
text length. -/
theorem mkLinesAux_toPos :
    ∀ (doc : List String) (n off : Nat) (l : Line),
      l ∈ mkLinesAux n off doc → l.toPos = l.fromPos + l.text.length := by
  intro doc
  induction doc with
  | nil => intro n off l h; cases h
  | cons s rest ih =>
    intro n off l h
    rcases List.mem_cons.mp h with rfl | h'
    · rfl
    · exact ih _ _ _ h'

/-- Helper: offset well-formedness of mkLines. -/
theorem mkLines_toPos {doc : List String} {l : Line} (h : l ∈ mkLines doc) :
    l.toPos = l.fromPos + l.text.length :=
  mkLinesAux_toPos doc 1 0 l h

/-- Helper: a decoration collected by the walker from some suffix,
starting in the state reached through the preceding prefix, is in the
walker's output for the whole line list. -/
theorem mem_walkLines_of_suffix {cfg : Config} {cursorPos : Int} :
    ∀ (pre : List Line) (suff : List Line) (st : ScanState) (d : Deco),
      d ∈ walkLines cfg cursorPos (stateThrough cfg cursorPos st pre suff) suff →
      d ∈ walkLines cfg cursorPos st (pre ++ suff) := by
  intro pre
  induction pre with
  | nil => intro suff st d h; exact h
  | cons x xs ih =>
    intro suff st d h
    rw [List.cons_append]
    simp only [walkLines]
    exact List.mem_append_right _ (ih suff _ d h)

/-- Helper: the walker output of the sorted final collection has the
same members as the unsorted walk. -/
theorem mem_createDecorations {cfg : Config} {cursorPos : Int}
    {doc : List String} {d : Deco}
    (h : d ∈ walkLines cfg cursorPos initialScanState (mkLines doc)) :
    d ∈ createDecorations cfg cursorPos doc := by
  unfold createDecorations
  exact ((List.perm_insertionSort decoLE _).mem_iff).mpr h

/-- Helper: a decoration emitted by one walker step for the head line
is in the walker output for that line list. -/
theorem mem_walkLines_of_step {cfg : Config} {cursorPos : Int}
    {st : ScanState} {l : Line} {rest : List Line} {d : Deco}
    (h : d ∈ (processLine cfg cursorPos st l rest).1) :
    d ∈ walkLines cfg cursorPos st (l :: rest) := by
  simp only [walkLines]
  exact List.mem_append_left _ h

/-- Helper: a metadata line is at least eleven characters long. -/
theorem matchAtPublished_length {s : List Char}
    (h : matchAtPublished s = true) : 10 < s.length := by
  unfold matchAtPublished at h
  obtain ⟨-, hany⟩ := Bool.and_eq_true_iff.mp h
  cases hg : s.get? 10 with
  | none => rw [hg] at hany; cases hany
  | some c => exact (List.get?_eq_some.mp hg).1

/-- C6: for every document and cursor offset, every line matching the
reserved metadata prefix receives both a replace decoration hiding its
whole content and a line decoration collapsing it, with no cursor
exception. -/
theorem c6_metadata_always_suppressed :
    ∀ (cfg : Config) (cursorPos : Int) (doc : List String)
      (pre : List Line) (l : Line) (rest : List Line),
      mkLines doc = pre ++ l :: rest →
      matchAtPublished l.text = true →
      (⟨l.fromPos, l.toPos, .replace none⟩ : Deco) ∈ createDecorations cfg cursorPos doc
      ∧ (⟨l.fromPos, l.fromPos, .line "cm-hidden-line" []⟩ : Deco)
          ∈ createDecorations cfg cursorPos doc := by
  intro cfg cursorPos doc pre l rest hsplit hmatch
  have hmem : l ∈ mkLines doc := by
    rw [hsplit]
    exact List.mem_append_right _ (List.mem_cons_self _ _)
  have hwf : l.toPos = l.fromPos + l.text.length := mkLines_toPos hmem
  have hlen : 10 < l.text.length := matchAtPublished_length hmatch
  have hfrom : l.fromPos < l.toPos := by omega
  have hstep : ∀ st : ScanState,
      (⟨l.fromPos, l.toPos, .replace none⟩ : Deco)
        ∈ (processLine cfg cursorPos st l rest).1
      ∧ (⟨l.fromPos, l.fromPos, .line "cm-hidden-line" []⟩ : Deco)
        ∈ (processLine cfg cursorPos st l rest).1 := by
    intro st
    rw [processLine.eq_def, if_pos hmatch]
    unfold atPublishedDecos
    rw [if_pos hfrom]
    exact ⟨by simp, by simp⟩
  have hlift : ∀ d : Deco,
      d ∈ (processLine cfg cursorPos
            (stateThrough cfg cursorPos initialScanState pre (l :: rest)) l rest).1 →
      d ∈ createDecorations cfg cursorPos doc := by
    intro d hd
    apply mem_createDecorations
    rw [hsplit]
    exact mem_walkLines_of_suffix pre (l :: rest) initialScanState d
      (mem_walkLines_of_step hd)
  exact ⟨hlift _ (hstep _).1, hlift _ (hstep _).2⟩

/-- C6, witness: a concrete one-line metadata document with the cursor
sitting on that very line still gets both suppressing decorations. -/
theorem c6_metadata_always_suppressed_witness :
    mkLines ["@published true"] = [] ++ (⟨1, 0, 15, "@published true".toList⟩ : Line) :: []
    ∧ matchAtPublished ("@published true".toList) = true
    ∧ (⟨0, 15, .replace none⟩ : Deco) ∈ createDecorations ⟨false, []⟩ 3 ["@published true"]
    ∧ (⟨0, 0, .line "cm-hidden-line" []⟩ : Deco)
        ∈ createDecorations ⟨false, []⟩ 3 ["@published true"] := by
  have h := c6_metadata_always_suppressed ⟨false, []⟩ 3 ["@published true"]
    [] ⟨1, 0, 15, "@published true".toList⟩ [] (by decide) (by decide)
  exact ⟨by decide, by decide, h.1, h.2⟩

/-- Helper: the ASCII lower-casing of the case-insensitive regex flag
maps only the at sign to an at sign. -/
theorem toLower_eq_at {c : Char} (h : Char.toLower c = '@') : c = '@' := by
  unfold Char.toLower at h
  dsimp only at h
  split at h
  · rename_i hc
    exfalso
    have hval : (Char.ofNat (c.toNat + 32)).toNat = c.toNat + 32 := by
      unfold Char.ofNat
      split
      · rfl
      · rename_i hv
        exact absurd (Or.inl (by omega)) hv
    have h64 := congrArg Char.toNat h
    rw [hval] at h64
    have : c.toNat + 32 = 64 := by simpa using h64
    omega
  · exact h

/-- Helper: a line matching the reserved metadata prefix starts with an
at sign (up to lower-casing). -/
theorem matchAtPublished_head {c : Char} {t : List Char}
    (h : matchAtPublished (c :: t) = true) : Char.toLower c = '@' := by
  unfold matchAtPublished at h
  obtain ⟨hmap, -⟩ := Bool.and_eq_true_iff.mp h
  rw [decide_eq_true_eq] at hmap
  rw [show (10 : Nat) = 9 + 1 from rfl, List.take_succ_cons, List.map_cons] at hmap
  rw [show "@published".toList = '@' :: "published".toList from rfl] at hmap
  exact (List.cons.injEq _ _ _ _ ▸ hmap).1

/-- Helper: a line whose trimmed text is the custom-block sentinel
never matches the reserved metadata prefix. -/
theorem matchAtPublished_false_of_trim :
    ∀ (t : List Char), trimChars t = "===".toList →
      matchAtPublished t = false := by
  intro t
  induction t with
  | nil => intro h; cases h
  | cons c t' ih =>
    intro h
    by_cases hs : isSpace c = true
    · have htrim : trimChars (c :: t') = trimChars t' := by
        simp [trimChars, List.dropWhile_cons, hs]
      rw [htrim] at h
      apply Bool.eq_false_iff.mpr
      intro htrue
      have hat := toLower_eq_at (matchAtPublished_head htrue)
      rw [hat] at hs
      exact absurd hs (by decide)
    · have hd : List.dropWhile isSpace (c :: t') = c :: t' := by
        simp [List.dropWhile_cons, hs]
      have hform : trimChars (c :: t') =
          ((t'.reverse ++ [c]).dropWhile isSpace).reverse := by
        rw [trimChars, hd, List.reverse_cons]
      rw [List.dropWhile_append] at hform
      by_cases he : (t'.reverse.dropWhile isSpace).isEmpty = true
      · rw [if_pos he] at hform
        have hsingle : trimChars (c :: t') = [c] := by
          rw [hform]
          simp [List.dropWhile_cons, hs]
        rw [hsingle] at h
        simp at h
      · rw [if_neg he] at hform
        rw [List.reverse_append] at hform
        have hform2 : trimChars (c :: t') =
            c :: (t'.reverse.dropWhile isSpace).reverse := by
          rw [hform]
          rfl
        rw [hform2] at h
        have hc : c = '=' := by
          have hh := congrArg List.head? h
          simpa using hh
        subst hc
        apply Bool.eq_false_iff.mpr
        intro htrue
        have hat := toLower_eq_at (matchAtPublished_head htrue)
        exact absurd hat (by decide)

/-- Helper: the opening-sentinel lookahead finds the published flag
whenever some line before the first closing sentinel carries it. -/
theorem blogLookahead_true_of :
    ∀ (rest : List Line) (j k : Nat) (lj lk : Line),
      rest.get? j = some lj → trimChars lj.text = "===".toList →
      (∀ m lm, m < j → rest.get? m = some lm →
        trimChars lm.text ≠ "===".toList) →
      k < j → rest.get? k = some lk →
      publishedTrueMatch (trimChars lk.text) = true →
      blogLookahead rest = true := by
  intro rest
  induction rest with
  | nil =>
    intro j k lj lk hj
    simp at hj
  | cons l tail ih =>
    intro j k lj lk hj htrimj hfirst hk hlk hpub
    have hne : trimChars l.text ≠ "===".toList := hfirst 0 l (by omega) rfl
    rw [blogLookahead, if_neg hne]
    by_cases hp : publishedTrueMatch (trimChars l.text) = true
    · rw [if_pos hp]
    · rw [if_neg hp]
      cases k with
      | zero =>
        have hlk0 : l = lk := by simpa using hlk
        rw [← hlk0] at hpub
        exact absurd hpub hp
      | succ k' =>
        cases j with
        | zero => omega
        | succ j' =>
          apply ih j' k' lj lk
          · simpa using hj
          · exact htrimj
          · intro m lm hm hgm
            exact hfirst (m+1) lm (by omega) (by simpa using hgm)
          · omega
          · simpa using hlk
          · exact hpub

/-- C5: whenever the walker reaches (in a state outside any custom
block) an opening sentinel line whose block is later closed by a
matching sentinel, and a line strictly between the two carries the
published flag, the replacement widget emitted for the opening line
(caret elsewhere) is marked published — the lookahead decides this at
the opening line, wherever the flag sits inside the block. -/
theorem c5_custom_block_published_lookahead :
    ∀ (cfg : Config) (cursorPos : Int) (doc : List String)
      (pre : List Line) (l : Line) (rest : List Line),
      mkLines doc = pre ++ l :: rest →
      (stateThrough cfg cursorPos initialScanState pre (l :: rest)).inBlogBlock = false →
      trimChars l.text = "===".toList →
      cursorOnLine cursorPos l = false →
      (∃ j lj, rest.get? j = some lj ∧ trimChars lj.text = "===".toList ∧
        (∀ m lm, m < j → rest.get? m = some lm →
          trimChars lm.text ≠ "===".toList) ∧
        ∃ k lk, k < j ∧ rest.get? k = some lk ∧
          publishedTrueMatch (trimChars lk.text) = true) →
      (⟨l.fromPos, l.toPos,
        .replace (some (.blogBlockHeader l.number cfg.hasPublish true))⟩ : Deco)
        ∈ createDecorations cfg cursorPos doc := by
  intro cfg cursorPos doc pre l rest hsplit hstate htrim hcur hex
  have hpub : blogLookahead rest = true := by
    obtain ⟨j, lj, hj, htj, hfirst, k, lk, hkj, hk, hp⟩ := hex
    exact blogLookahead_true_of rest j k lj lk hj htj hfirst hkj hk hp
  have hmeta : matchAtPublished l.text = false :=
    matchAtPublished_false_of_trim _ htrim
  apply mem_createDecorations
  rw [hsplit]
  apply mem_walkLines_of_suffix pre (l :: rest) initialScanState
  apply mem_walkLines_of_step
  rw [processLine.eq_def]
  rw [if_neg (by simp [hmeta])]
  rw [if_pos htrim]
  rw [blogSentinelBranch.eq_def]
  rw [if_pos (by rw [hstate]; rfl)]
  rw [hpub]
  rw [if_pos (by rw [hcur]; rfl)]
  exact List.mem_singleton.mpr rfl

/-- C5, witness: a concrete four-line custom block with the published
flag on its third line gets a published opening widget. -/
theorem c5_custom_block_published_lookahead_witness :
    (⟨0, 3, .replace (some (.blogBlockHeader 1 true true))⟩ : Deco)
      ∈ createDecorations ⟨true, []⟩ (-1) ["===", "t", "published: true", "==="] := by
  apply c5_custom_block_published_lookahead ⟨true, []⟩ (-1)
    ["===", "t", "published: true", "==="] []
    ⟨1, 0, 3, "===".toList⟩
    [⟨2, 4, 5, "t".toList⟩, ⟨3, 6, 21, "published: true".toList⟩,
     ⟨4, 22, 25, "===".toList⟩]
  · decide
  · decide
  · decide
  · decide
  · refine ⟨2, ⟨4, 22, 25, "===".toList⟩, by decide, by decide, ?_,
      1, ⟨3, 6, 21, "published: true".toList⟩, by decide, by decide, by decide⟩
    intro m lm hm hgm
    interval_cases m
    · have hlm : lm = ⟨2, 4, 5, "t".toList⟩ := by simpa using hgm.symm
      rw [hlm]
      decide
    · have hlm : lm = ⟨3, 6, 21, "published: true".toList⟩ := by simpa using hgm.symm
      rw [hlm]
      decide

/-- Helper: shape of the elements of the two closed bold phases. -/
theorem closedBoldPhase_shape {s : List Char} {lf : Nat} {el : MarkdownElement}
    (h : el ∈ closedBoldPhase s lf) :
    el.type = .bold ∧ el.closeMarker.fromPos < el.closeMarker.toPos := by
  rcases List.mem_append.mp h with h | h
  · exact doubledElems_shape h
  · exact doubledElems_shape h

/-- Helper: an italic-typed element of the output with a closed marker
and an asterisk at its start position comes from the closed asterisk
italic phase. -/
theorem italic_star_closed_mem {text : List Char} {lf : Nat}
    {el : MarkdownElement}
    (hel : el ∈ parseInlineElements text lf)
    (hty : el.type = .italic)
    (hclosed : el.closeMarker.fromPos < el.closeMarker.toPos)
    (hstar : text.get? (el.fromPos - lf) = some '*') :
    el ∈ italicStarElems text lf (closedBoldPhase text lf) := by
  simp only [parseInlineElements, List.mem_append] at hel
  rcases hel with ((((((((((h|h)|h)|h)|h)|h)|h)|h)|h)|h)|h)
  · exact absurd ((closedBoldPhase_shape h).1.symm.trans hty) (by decide)
  · exact h
  · obtain ⟨p, hund, -, hfrom, -⟩ := italicUnderscoreElems_shape h
    rw [hfrom, Nat.add_sub_cancel_left, hund] at hstar
    exact absurd hstar (by decide)
  · exact absurd ((doubledElems_shape h).1.symm.trans hty) (by decide)
  · exact absurd ((singleElems_shape h).1.symm.trans hty) (by decide)
  · exact absurd ((linkElems_shape h).1.symm.trans hty) (by decide)
  · exact absurd ((tagElems_shape h).symm.trans hty) (by decide)
  · exact absurd ((unclosedDoubledElems_shape h).1.symm.trans hty) (by decide)
  · have := (unclosedItalicElems_shape h).2
    omega
  · exact absurd ((unclosedDoubledElems_shape h).1.symm.trans hty) (by decide)
  · exact absurd ((unclosedSingleElems_shape h).1.symm.trans hty) (by decide)

/-- Helper: a bold-typed element of the output with a closed marker
comes from the closed bold phases. -/
theorem bold_closed_mem {text : List Char} {lf : Nat} {b : MarkdownElement}
    (hb : b ∈ parseInlineElements text lf)
    (hbty : b.type = .bold)
    (hbclosed : b.closeMarker.fromPos < b.closeMarker.toPos) :
    b ∈ closedBoldPhase text lf := by
  simp only [parseInlineElements, List.mem_append] at hb
  rcases hb with ((((((((((h|h)|h)|h)|h)|h)|h)|h)|h)|h)|h)
  · exact h
  · obtain ⟨p, -, hity, -, -, -, -⟩ := italicStarElems_shape h
    exact absurd (hity.symm.trans hbty) (by decide)
  · obtain ⟨p, -, hity, -, -⟩ := italicUnderscoreElems_shape h
    exact absurd (hity.symm.trans hbty) (by decide)
  · exact absurd ((doubledElems_shape h).1.symm.trans hbty) (by decide)
  · exact absurd ((singleElems_shape h).1.symm.trans hbty) (by decide)
  · exact absurd ((linkElems_shape h).1.symm.trans hbty) (by decide)
  · exact absurd ((tagElems_shape h).symm.trans hbty) (by decide)
  · have := (unclosedDoubledElems_shape h).2
    omega
  · have := (unclosedItalicElems_shape h).2
    omega
  · have := (unclosedDoubledElems_shape h).2
    omega
  · have := (unclosedSingleElems_shape h).2
    omega

/-- C2, counterexample: on a line where a closed-underscore italic
match lies inside a closed bold span, the scanner emits both: the
underscore italic is pushed with no overlap check, so an italic span
overlapping an already-recognized bold span is present in the output. -/
theorem c2_counterexample :
    (⟨.bold, 0, 9, ⟨0, 2⟩, ⟨7, 9⟩, none⟩ : MarkdownElement)
      ∈ parseInlineElements "** _x_ **".toList 0
    ∧ (⟨.italic, 3, 6, ⟨3, 4⟩, ⟨5, 6⟩, none⟩ : MarkdownElement)
      ∈ parseInlineElements "** _x_ **".toList 0
    ∧ ¬((6 : Nat) ≤ 0 ∨ (9 : Nat) ≤ 3) := by
  decide

/-- C2, amended: bold wins ties against the asterisk form only — every
closed asterisk-form italic match never overlaps any closed bold span
of the output (the overlap filter drops it), while the underscore form
and the unclosed variants are pushed without a bold-overlap check. -/
theorem c2_bold_wins_star_italic_amended :
    ∀ (text : List Char) (lineFrom : Nat) (el b : MarkdownElement),
      el ∈ parseInlineElements text lineFrom →
      b ∈ parseInlineElements text lineFrom →
      el.type = .italic →
      el.closeMarker.fromPos < el.closeMarker.toPos →
      text.get? (el.fromPos - lineFrom) = some '*' →
      b.type = .bold →
      b.closeMarker.fromPos < b.closeMarker.toPos →
      el.toPos ≤ b.fromPos ∨ b.toPos ≤ el.fromPos := by
  intro text lf el b hel hb hty hclosed hstar hbty hbclosed
  have hel' := italic_star_closed_mem hel hty hclosed hstar
  have hb' := bold_closed_mem hb hbty hbclosed
  obtain ⟨p, -, -, hf, ht, -, hfilter⟩ := italicStarElems_shape hel'
  rw [List.any_eq_false] at hfilter
  have hb2 := hfilter b hb'
  simp only [hbty, decide_True, Bool.true_and, Bool.not_eq_true',
    Bool.not_eq_false, Bool.or_eq_true, decide_eq_true_eq] at hb2
  omega

/-- C2, amended, witness: a line holding a closed bold span and a
separate closed asterisk italic satisfies all the hypotheses, and the
two spans indeed do not overlap. -/
theorem c2_bold_wins_star_italic_amended_witness :
    (⟨.italic, 6, 9, ⟨6, 7⟩, ⟨8, 9⟩, none⟩ : MarkdownElement)
      ∈ parseInlineElements "**a** *b*".toList 0
    ∧ (⟨.bold, 0, 5, ⟨0, 2⟩, ⟨3, 5⟩, none⟩ : MarkdownElement)
      ∈ parseInlineElements "**a** *b*".toList 0
    ∧ ((9 : Nat) ≤ 0 ∨ (5 : Nat) ≤ 6) := by
  refine ⟨by decide, by decide, ?_⟩
  exact c2_bold_wins_star_italic_amended "**a** *b*".toList 0
    ⟨.italic, 6, 9, ⟨6, 7⟩, ⟨8, 9⟩, none⟩
    ⟨.bold, 0, 5, ⟨0, 2⟩, ⟨3, 5⟩, none⟩
    (by decide) (by decide) (by decide) (by decide) (by decide)
    (by decide) (by decide)

end XunNotes
